import Mathlib

/- Verification of the firehose block-streaming adapter (src/firehose.rs).

   The development shallowly embeds the hex/quantity codec, the raw-to-
   canonical block conversion (the `TryFrom` impls), the three-phase
   stream-merge orchestrator (`Firehose::blocks`) and the single-block
   fetcher (`Firehose::block`), and proves theorems checking the
   specification's claims against that embedding.

   Machine integers are modelled as `Nat`/`Int` with explicit bounds where
   overflow matters; Rust `Result`/panic outcomes are modelled by
   `Except Err`; upstream data sources are modelled as explicit inputs
   (the raw blocks, heights, hashes and hot updates they return). -/

set_option maxRecDepth 200000

deriving instance DecidableEq for Except

/-- Error outcomes of the embedded code.  `panic` models a Rust panic
(`Option::unwrap` on `None`, `Result::unwrap` on `Err`, an out-of-bounds
string slice); the other constructors model typed errors carried in
`anyhow::Result`.  `missingRequiredField`, `invalidCursor` and `notFound`
belong to the spec's error taxonomy; the source never constructs them,
which is what the claims about them are checked against. -/
inductive Err where
  | malformedHex
  | intOverflow
  | tryFromInt
  | panic
  | invariantViolation
  | missingRequiredField
  | invalidCursor
  | notFound
  deriving DecidableEq, Repr

/-- Value of one hexadecimal digit (the `hex` crate accepts both cases). -/
def hexVal (c : Char) : Option Nat :=
  if '0' ≤ c ∧ c ≤ '9' then some (c.toNat - 48)
  else if 'a' ≤ c ∧ c ≤ 'f' then some (c.toNat - 87)
  else if 'A' ≤ c ∧ c ≤ 'F' then some (c.toNat - 55)
  else none

/-- Decode an even-length run of hex digits into bytes; `none` on an odd
length or a non-hex character. -/
def decodeHexPairs : List Char → Option (List Nat)
  | [] => some []
  | [_] => none
  | hi :: lo :: rest =>
    match hexVal hi, hexVal lo, decodeHexPairs rest with
    | some h, some l, some tl => some ((16 * h + l) :: tl)
    | _, _, _ => none

/-- `prefix_hex::decode::<Vec<u8>>` on the character list of the input:
requires the literal `0x` prefix and an even number of hex digits. -/
def decode0xChars : List Char → Option (List Nat)
  | '0' :: 'x' :: digits => decodeHexPairs digits
  | _ => none

/-- `prefix_hex::decode(..)?` — failure propagates as a typed error. -/
def decode0xE (s : String) : Except Err (List Nat) :=
  match decode0xChars s.toList with
  | some b => Except.ok b
  | none => Except.error Err.malformedHex

/-- `prefix_hex::decode(..).unwrap()` — failure is a panic. -/
def decode0xPanic (s : String) : Except Err (List Nat) :=
  match decode0xChars s.toList with
  | some b => Except.ok b
  | none => Except.error Err.panic

/-- `vec_from_hex` from src/firehose.rs on the character list: an input of
odd total length is re-padded as `"0x0" ++ digits` before decoding.
`&value[2..]` panics when the (odd-length) string is shorter than the
two-character prefix. -/
def vecFromHexChars (value : List Char) : Except Err (List Nat) :=
  if value.length % 2 ≠ 0 then
    if value.length < 2 then Except.error Err.panic
    else
      match decode0xChars ('0' :: 'x' :: '0' :: value.drop 2) with
      | some b => Except.ok b
      | none => Except.error Err.malformedHex
  else
    match decode0xChars value with
    | some b => Except.ok b
    | none => Except.error Err.malformedHex

/-- `vec_from_hex` from src/firehose.rs. -/
def vec_from_hex (value : String) : Except Err (List Nat) :=
  vecFromHexChars value.toList

/-- `vec_from_hex(..).unwrap()` — failure is a panic. -/
def vecFromHexPanic (value : String) : Except Err (List Nat) :=
  match vec_from_hex value with
  | Except.ok b => Except.ok b
  | Except.error _ => Except.error Err.panic

/-- `str::trim_start_matches("0x")`: strips every leading `0x` occurrence. -/
def trimStart0x : List Char → List Char
  | '0' :: 'x' :: rest => trimStart0x rest
  | l => l

/-- Accumulating base-16 parse of a digit run. -/
def hexCharsToNat : List Char → Nat → Option Nat
  | [], acc => some acc
  | c :: rest, acc =>
    match hexVal c with
    | some d => hexCharsToNat rest (16 * acc + d)
    | none => none

/-- `qty2int` from src/firehose.rs on the character list:
`u64::from_str_radix(value.trim_start_matches("0x"), 16)`.  The empty
string and non-hex characters are parse errors; a value that does not fit
in 64 bits is an overflow error (both reach the caller through `?`). -/
def qty2intChars (value : List Char) : Except Err Nat :=
  let digits := trimStart0x value
  if digits.isEmpty then Except.error Err.malformedHex
  else
    match hexCharsToNat digits 0 with
    | some n =>
      if n < 18446744073709551616 then Except.ok n   -- 2^64
      else Except.error Err.intOverflow
    | none => Except.error Err.malformedHex

/-- `qty2int` from src/firehose.rs. -/
def qty2int (value : String) : Except Err Nat :=
  qty2intChars value.toList

/-- `u64::from_str_radix(value.trim_start_matches("0x"), 16).unwrap()`
(used for call gas fields) — failure is a panic. -/
def parseU64Panic (value : String) : Except Err Nat :=
  match qty2int value with
  | Except.ok n => Except.ok n
  | Except.error _ => Except.error Err.panic

/-- `i64::MIN` = -2^63. -/
def i64Min : Int := -9223372036854775808

/-- `resolve_negative_start` from src/firehose.rs: a negative start is an
offset from the head height obtained from the live source
(`head.saturating_sub(delta)`, clamping at 0); a non-negative start is
converted as-is.  For `start_block_num = i64::MIN`, `i64::abs` overflows
(debug builds panic; release builds wrap to `i64::MIN`, making
`u64::try_from` fail), so the call returns an error instead of a height. -/
def resolve_negative_start (start_block_num : Int) (head : Nat) : Except Err Nat :=
  if start_block_num < 0 then
    if start_block_num = i64Min then Except.error Err.tryFromInt
    else Except.ok (head - start_block_num.natAbs)
  else Except.ok start_block_num.toNat

/-- `HashAndHeight` from the data-source layer: the tracked chain tip. -/
structure HashAndHeight where
  hash : String
  height : Nat
  deriving DecidableEq, Repr, Inhabited

/-- Trace kinds of the raw data-source records. -/
inductive TraceType where
  | create
  | call
  | suicide
  | reward
  deriving DecidableEq, Repr, Inhabited

/-- Call kinds carried by a `Call`-type trace's action. -/
inductive CallType where
  | call
  | callcode
  | delegatecall
  | staticcall
  deriving DecidableEq, Repr, Inhabited

/-- A raw trace's action record; fields as accessed by src/firehose.rs
(declared in the data-source module outside src/, all optional). -/
structure TraceAction where
  fromAddr : Option String
  toAddr : Option String
  value : Option String
  gas : Option String
  input : Option String
  type : Option CallType
  deriving DecidableEq, Repr, Inhabited

/-- A raw trace's result record; fields as accessed by src/firehose.rs. -/
structure TraceResult where
  address : Option String
  gas_used : Option String
  output : Option String
  deriving DecidableEq, Repr, Inhabited

/-- A raw trace; fields as accessed by src/firehose.rs. -/
structure Trace where
  transaction_index : Nat
  type : TraceType
  action : Option TraceAction
  result : Option TraceResult
  error : Option String
  revert_reason : Option String
  deriving DecidableEq, Repr, Inhabited

/-- A raw log record; fields as accessed by src/firehose.rs. -/
structure Log where
  address : String
  data : String
  log_index : Nat
  transaction_index : Nat
  topics : List String
  deriving DecidableEq, Repr, Inhabited

/-- A raw transaction; fields as accessed by src/firehose.rs
(`from` and `to` are spelt `fromAddr`/`toAddr`: both are reserved words in Lean). -/
structure Transaction where
  toAddr : Option String
  nonce : Nat
  gas_price : String
  gas : String
  gas_used : String
  value : String
  input : String
  v : String
  r : String
  s : String
  type : Nat
  max_fee_per_gas : Option String
  max_priority_fee_per_gas : Option String
  transaction_index : Nat
  hash : String
  fromAddr : String
  status : Nat
  cumulative_gas_used : String
  deriving DecidableEq, Repr, Inhabited

/-- A raw block header; fields as accessed by src/firehose.rs. -/
structure BlockHeader where
  number : Nat
  hash : String
  parent_hash : String
  size : Nat
  sha3_uncles : String
  miner : String
  state_root : String
  transactions_root : String
  receipts_root : String
  logs_bloom : String
  difficulty : String
  total_difficulty : String
  gas_limit : String
  gas_used : String
  timestamp : Nat
  extra_data : String
  mix_hash : String
  nonce : String
  base_fee_per_gas : Option String
  deriving DecidableEq, Repr, Inhabited

/-- A raw block as delivered by the data sources. -/
structure Block where
  header : BlockHeader
  transactions : List Transaction
  logs : List Log
  traces : List Trace
  deriving DecidableEq, Repr, Inhabited

/-- `pbcodec::BigInt`: a big integer as raw big-endian magnitude bytes. -/
structure BigIntBytes where
  bytes : List Nat
  deriving DecidableEq, Repr, Inhabited

/-- Canonical `pbcodec::BlockHeader` (fields the conversion writes;
`timestamp` holds the prost `Timestamp` seconds). -/
structure PbBlockHeader where
  parent_hash : List Nat
  uncle_hash : List Nat
  coinbase : List Nat
  state_root : List Nat
  transactions_root : List Nat
  receipt_root : List Nat
  logs_bloom : List Nat
  difficulty : Option BigIntBytes
  total_difficulty : Option BigIntBytes
  number : Nat
  gas_limit : Nat
  gas_used : Nat
  timestamp : Option Int
  extra_data : List Nat
  mix_hash : List Nat
  nonce : Nat
  hash : List Nat
  base_fee_per_gas : Option BigIntBytes
  deriving DecidableEq, Repr, Inhabited

/-- Canonical `pbcodec::Log`. -/
structure PbLog where
  address : List Nat
  data : List Nat
  block_index : Nat
  topics : List (List Nat)
  index : Nat
  ordinal : Nat
  deriving DecidableEq, Repr, Inhabited

/-- Canonical `pbcodec::TransactionReceipt`. -/
structure PbReceipt where
  state_root : List Nat
  cumulative_gas_used : Nat
  logs_bloom : List Nat
  logs : List PbLog
  deriving DecidableEq, Repr, Inhabited

/-- Canonical `pbcodec::Call` (one flattened trace entry). -/
structure PbCall where
  index : Nat
  parent_index : Nat
  depth : Nat
  call_type : Nat
  caller : List Nat
  address : List Nat
  value : Option BigIntBytes
  gas_limit : Nat
  gas_consumed : Nat
  return_data : List Nat
  input : List Nat
  executed_code : Bool
  suicideFlag : Bool
  status_failed : Bool
  status_reverted : Bool
  failure_reason : String
  state_reverted : Bool
  begin_ordinal : Nat
  end_ordinal : Nat
  deriving DecidableEq, Repr, Inhabited

/-- Canonical `pbcodec::TransactionTrace`. -/
structure PbTransactionTrace where
  toAddr : List Nat
  nonce : Nat
  gas_price : Option BigIntBytes
  gas_limit : Nat
  gas_used : Nat
  value : Option BigIntBytes
  input : List Nat
  v : List Nat
  r : List Nat
  s : List Nat
  type : Nat
  index : Nat
  hash : List Nat
  fromAddr : List Nat
  max_fee_per_gas : Option BigIntBytes
  max_priority_fee_per_gas : Option BigIntBytes
  return_data : List Nat
  public_key : List Nat
  begin_ordinal : Nat
  end_ordinal : Nat
  status : Nat
  receipt : Option PbReceipt
  calls : List PbCall
  deriving DecidableEq, Repr, Inhabited

/-- Canonical `pbcodec::Block`. -/
structure PbBlock where
  ver : Nat
  hash : List Nat
  number : Nat
  size : Nat
  header : Option PbBlockHeader
  transaction_traces : List PbTransactionTrace
  deriving DecidableEq, Repr, Inhabited

/-- `pbcodec::BlockHeader::default()`: prost defaults — zero scalars,
empty byte fields, `None` message fields. -/
def pbHeaderDefault : PbBlockHeader :=
  { parent_hash := [], uncle_hash := [], coinbase := [], state_root := []
    transactions_root := [], receipt_root := [], logs_bloom := []
    difficulty := none, total_difficulty := none, number := 0
    gas_limit := 0, gas_used := 0, timestamp := none, extra_data := []
    mix_hash := [], nonce := 0, hash := [], base_fee_per_gas := none }

/-- `pbcodec::Block::default()`. -/
def pbBlockDefault : PbBlock :=
  { ver := 0, hash := [], number := 0, size := 0, header := none
    transaction_traces := [] }

/-- The `map_or(Ok(None), |val| Ok(Some(BigInt { bytes: vec_from_hex(&val)? })))`
closure used for the optional big-integer fields. -/
def optBigInt (v : Option String) : Except Err (Option BigIntBytes) :=
  match v with
  | none => Except.ok none
  | some val => do
    let b ← vec_from_hex val
    Except.ok (some ({ bytes := b } : BigIntBytes))

/-- `i64::try_from(value.timestamp)`: fails for 2^63 or more. -/
def secondsFromTimestamp (ts : Nat) : Except Err Int :=
  if ts < 9223372036854775808 then Except.ok (Int.ofNat ts)
  else Except.error Err.tryFromInt

/-- `TryFrom<BlockHeader> for pbcodec::BlockHeader` from src/firehose.rs,
field by field in source order; `i64::try_from(value.timestamp)` fails for
a timestamp of 2^63 or more. -/
def blockHeaderTryFrom (value : BlockHeader) : Except Err PbBlockHeader := do
  let parent_hash ← decode0xE value.parent_hash
  let uncle_hash ← decode0xE value.sha3_uncles
  let coinbase ← decode0xE value.miner
  let state_root ← decode0xE value.state_root
  let transactions_root ← decode0xE value.transactions_root
  let receipt_root ← decode0xE value.receipts_root
  let logs_bloom ← decode0xE value.logs_bloom
  let difficulty ← vec_from_hex value.difficulty
  let total_difficulty ← vec_from_hex value.total_difficulty
  let gas_limit ← qty2int value.gas_limit
  let gas_used ← qty2int value.gas_used
  let seconds ← secondsFromTimestamp value.timestamp
  let extra_data ← decode0xE value.extra_data
  let mix_hash ← decode0xE value.mix_hash
  let nonce ← qty2int value.nonce
  let hash ← decode0xE value.hash
  let base_fee_per_gas ← optBigInt value.base_fee_per_gas
  Except.ok
    { parent_hash := parent_hash, uncle_hash := uncle_hash, coinbase := coinbase
      state_root := state_root, transactions_root := transactions_root
      receipt_root := receipt_root, logs_bloom := logs_bloom
      difficulty := some { bytes := difficulty }
      total_difficulty := some { bytes := total_difficulty }
      number := value.number, gas_limit := gas_limit, gas_used := gas_used
      timestamp := some seconds, extra_data := extra_data, mix_hash := mix_hash
      nonce := nonce, hash := hash, base_fee_per_gas := base_fee_per_gas }

/-- The all-zero 20-byte address the source substitutes for an absent
transaction `to` field. -/
def zeroAddressHex : String := "0x0000000000000000000000000000000000000000"

/-- `TryFrom<Transaction> for pbcodec::TransactionTrace` from
src/firehose.rs, field by field in source order. -/
def transactionTryFrom (value : Transaction) : Except Err PbTransactionTrace := do
  let toBytes ← decode0xE (value.toAddr.getD zeroAddressHex)
  let gas_price ← vec_from_hex value.gas_price
  let gas_limit ← qty2int value.gas
  let gas_used ← qty2int value.gas_used
  let valueBytes ← vec_from_hex value.value
  let input ← decode0xE value.input
  let v ← vec_from_hex value.v
  let r ← vec_from_hex value.r
  let s ← vec_from_hex value.s
  let max_fee_per_gas ← optBigInt value.max_fee_per_gas
  let max_priority_fee_per_gas ← optBigInt value.max_priority_fee_per_gas
  let hash ← decode0xE value.hash
  let fromBytes ← decode0xE value.fromAddr
  Except.ok
    { toAddr := toBytes, nonce := value.nonce
      gas_price := some { bytes := gas_price }
      gas_limit := gas_limit, gas_used := gas_used
      value := some { bytes := valueBytes }
      input := input, v := v, r := r, s := s, type := value.type
      max_fee_per_gas := max_fee_per_gas
      max_priority_fee_per_gas := max_priority_fee_per_gas
      index := value.transaction_index, hash := hash, fromAddr := fromBytes
      return_data := [], public_key := [], begin_ordinal := 0, end_ordinal := 0
      status := value.status, receipt := none, calls := [] }

/-- `log.topics.into_iter().map(|topic| prefix_hex::decode(topic).unwrap()).collect()`. -/
def decodeTopics : List String → Except Err (List (List Nat))
  | [] => Except.ok []
  | topic :: rest => do
    let t ← decode0xPanic topic
    let ts ← decodeTopics rest
    Except.ok (t :: ts)

/-- The per-log conversion inside the transaction-traces `map` in
src/firehose.rs (every decode there is `.unwrap()`ed, so failures are
panics). -/
def logTryFrom (log : Log) : Except Err PbLog := do
  let address ← decode0xPanic log.address
  let data ← decode0xPanic log.data
  let topics ← decodeTopics log.topics
  Except.ok
    { address := address, data := data, block_index := log.log_index
      topics := topics, index := log.transaction_index, ordinal := 0 }

/-- `Option::unwrap`: a panic when the value is absent. -/
def unwrapO {a : Type} : Option a → Except Err a
  | some x => Except.ok x
  | none => Except.error Err.panic

/-- The shared `pbcodec::Call` literal ending the trace closure in
src/firehose.rs; every decode/parse in it is `.unwrap()`ed, evaluated in
the literal's field order. -/
def mkCall (trace : Trace) (call_type : Nat)
    (caller address value gas gas_used output input : String) :
    Except Err PbCall := do
  let callerB ← vecFromHexPanic caller
  let addressB ← vecFromHexPanic address
  let valueB ← vecFromHexPanic value
  let gas_limit ← parseU64Panic gas
  let gas_consumed ← parseU64Panic gas_used
  let return_data ← vecFromHexPanic output
  let inputB ← vecFromHexPanic input
  Except.ok
    { index := 0, parent_index := 0, depth := 0, call_type := call_type
      caller := callerB, address := addressB
      value := some { bytes := valueB }
      gas_limit := gas_limit, gas_consumed := gas_consumed
      return_data := return_data, input := inputB
      executed_code := false, suicideFlag := false
      status_failed := trace.error.isSome || trace.revert_reason.isSome
      status_reverted := trace.revert_reason.isSome
      failure_reason := trace.error.getD (trace.revert_reason.getD "")
      state_reverted := false, begin_ordinal := 0, end_ordinal := 0 }

/-- `if result.is_some() { result.unwrap().gas_used.unwrap() } else { "0x0" }`. -/
def callGasUsed (result : Option TraceResult) : Except Err String :=
  match result with
  | some r => unwrapO r.gas_used
  | none => Except.ok "0x0"

/-- `if result.is_some() { result.unwrap().output.unwrap() } else { "0x" }`. -/
def callOutput (result : Option TraceResult) : Except Err String :=
  match result with
  | some r => unwrapO r.output
  | none => Except.ok "0x"

/-- The trace-flattening closure of the transaction-traces `map` in
src/firehose.rs: `Suicide` and `Reward` traces yield no call; `Create`
and `Call` traces read their mandatory fields with `.unwrap()` (a panic
when absent) and build one `pbcodec::Call`.  A `Call` trace without a
result falls back to gas `"0x0"` and output `"0x"`. -/
def traceToCall (trace : Trace) : Except Err (Option PbCall) :=
  match trace.type with
  | TraceType.suicide | TraceType.reward => Except.ok none
  | TraceType.create => do
    let action ← unwrapO trace.action
    let result := trace.result
    let call_type : Nat := 5
    let caller ← unwrapO action.fromAddr
    let address ← unwrapO (← unwrapO result).address
    let value ← unwrapO action.value
    let gas ← unwrapO action.gas
    let gas_used ← unwrapO (← unwrapO result).gas_used
    let output := "0x"
    let input := "0x"
    let c ← mkCall trace call_type caller address value gas gas_used output input
    Except.ok (some c)
  | TraceType.call => do
    let action ← unwrapO trace.action
    let result := trace.result
    let ct ← unwrapO action.type
    let call_type : Nat :=
      match ct with
      | CallType.call => 1
      | CallType.callcode => 2
      | CallType.delegatecall => 3
      | CallType.staticcall => 4
    let caller ← unwrapO action.fromAddr
    let address ← unwrapO action.toAddr
    let value ← unwrapO action.value
    let gas ← unwrapO action.gas
    let gas_used ← callGasUsed result
    let output ← callOutput result
    let input ← unwrapO action.input
    let c ← mkCall trace call_type caller address value gas gas_used output input
    Except.ok (some c)

/-- `filter_map(..).collect()` over one transaction's trace group. -/
def collectCalls : List Trace → Except Err (List PbCall)
  | [] => Except.ok []
  | t :: rest => do
    let c ← traceToCall t
    let cs ← collectCalls rest
    Except.ok
      (match c with
       | some call => call :: cs
       | none => cs)

/-- Lookup in the association-list model of the grouping `HashMap`s. -/
def alistGet {a : Type} : List (Nat × a) → Nat → Option a
  | [], _ => none
  | (k2, v) :: rest, k => if k2 = k then some v else alistGet rest k

/-- One grouping step of `TryFrom<Block>`: push onto an existing group or
insert a fresh singleton group. -/
def alistPush {a : Type} : List (Nat × List a) → Nat → a → List (Nat × List a)
  | [], k, x => [(k, [x])]
  | (k2, v) :: rest, k, x =>
    if k2 = k then (k2, v ++ [x]) :: rest
    else (k2, v) :: alistPush rest k x

/-- `HashMap::remove`: the removed group paired with the remaining map. -/
def alistRemove {a : Type} : List (Nat × a) → Nat → Option a × List (Nat × a)
  | [], _ => (none, [])
  | (k2, v) :: rest, k =>
    if k2 = k then (some v, rest)
    else
      let p := alistRemove rest k
      (p.1, (k2, v) :: p.2)

/-- The grouping loops of `TryFrom<Block>`: fold the records into
per-transaction-index groups, preserving insertion order in a group. -/
def groupByKey {a : Type} (key : a → Nat) : List (Nat × List a) → List a → List (Nat × List a)
  | m, [] => m
  | m, x :: rest => groupByKey key (alistPush m (key x) x) rest

/-- `logs_by_tx` group conversion: `.map(logTryFrom).collect()`. -/
def convertGroupLogs : List Log → Except Err (List PbLog)
  | [] => Except.ok []
  | l :: rest => do
    let pl ← logTryFrom l
    let pls ← convertGroupLogs rest
    Except.ok (pl :: pls)

/-- The 512-zero-digit hex constant decoded into every receipt's bloom. -/
def zeroBloomHex : String := "0x00000000000000000000000000000000000000000000000000000000000000000000000000000000000000000000000000000000000000000000000000000000000000000000000000000000000000000000000000000000000000000000000000000000000000000000000000000000000000000000000000000000000000000000000000000000000000000000000000000000000000000000000000000000000000000000000000000000000000000000000000000000000000000000000000000000000000000000000000000000000000000000000000000000000000000000000000000000000000000000000000000000000000000000000000000000"

/-- The per-transaction closure of `TryFrom<Block>`: pop the transaction's
log and trace groups (`HashMap::remove`, defaulting to empty), convert
them, build the receipt, convert the transaction itself and attach the
receipt and calls. -/
def processTx (logsM : List (Nat × List Log)) (tracesM : List (Nat × List Trace))
    (tx : Transaction) :
    Except Err (PbTransactionTrace × List (Nat × List Log) × List (Nat × List Trace)) := do
  let logs ← convertGroupLogs ((alistRemove logsM tx.transaction_index).1.getD [])
  let calls ← collectCalls ((alistRemove tracesM tx.transaction_index).1.getD [])
  let cumulative_gas_used ← qty2int tx.cumulative_gas_used
  let logs_bloom ← decode0xE zeroBloomHex
  let tx_trace ← transactionTryFrom tx
  Except.ok
    ({ tx_trace with
        receipt := some { state_root := [], cumulative_gas_used := cumulative_gas_used
                          logs_bloom := logs_bloom, logs := logs }
        calls := calls },
     (alistRemove logsM tx.transaction_index).2,
     (alistRemove tracesM tx.transaction_index).2)

/-- The `transactions.into_iter().map(..).collect::<Result<..>>()` loop,
threading the two groupings (each transaction removes its own groups). -/
def convertTxs : List Transaction → List (Nat × List Log) → List (Nat × List Trace) →
    Except Err (List PbTransactionTrace)
  | [], _, _ => Except.ok []
  | tx :: rest, logsM, tracesM => do
    let r ← processTx logsM tracesM tx
    let ts ← convertTxs rest r.2.1 r.2.2
    Except.ok (r.1 :: ts)

/-- `TryFrom<Block> for pbcodec::Block` from src/firehose.rs. -/
def blockTryFrom (value : Block) : Except Err PbBlock := do
  let transaction_traces ← convertTxs value.transactions
      (groupByKey (fun (l : Log) => l.transaction_index) [] value.logs)
      (groupByKey (fun (t : Trace) => t.transaction_index) [] value.traces)
  let hash ← decode0xE value.header.hash
  let header ← blockHeaderTryFrom value.header
  Except.ok
    { ver := 2, hash := hash, number := value.header.number
      size := value.header.size, header := some header
      transaction_traces := transaction_traces }


/-- Witness fixture: a raw header whose every field decodes. -/
def sampleHeader : BlockHeader :=
  { number := 1, hash := "0x01", parent_hash := "0x02", size := 7
    sha3_uncles := "0x", miner := "0x", state_root := "0x"
    transactions_root := "0x", receipts_root := "0x", logs_bloom := "0x"
    difficulty := "0x0", total_difficulty := "0x0", gas_limit := "0x0"
    gas_used := "0x0", timestamp := 0, extra_data := "0x", mix_hash := "0x"
    nonce := "0x0", base_fee_per_gas := none }

/-- Witness fixture: a raw transaction whose every field decodes. -/
def sampleTx : Transaction :=
  { toAddr := some "0x0b", nonce := 3, gas_price := "0x1", gas := "0x5"
    gas_used := "0x2", value := "0x0", input := "0x", v := "0x1", r := "0x1"
    s := "0x1", type := 0, max_fee_per_gas := none
    max_priority_fee_per_gas := none, transaction_index := 0, hash := "0x0c"
    fromAddr := "0x0d", status := 1, cumulative_gas_used := "0x2" }

/-- Witness fixture: a raw log owned by transaction index 0. -/
def sampleLog : Log :=
  { address := "0x0a", data := "0x", log_index := 0, transaction_index := 0
    topics := ["0x01"] }

/-- Witness fixture for claim C10: `sampleTx` without a `to` field. -/
def c10tx : Transaction := { sampleTx with toAddr := none }

/-- The canonical transaction produced for `c10tx`. -/
def c10pt : PbTransactionTrace := (transactionTryFrom c10tx).toOption.getD default

/-- Witness fixture for claim C5: a suicide-kind trace. -/
def c5suicide : Trace :=
  { transaction_index := 0, type := TraceType.suicide, action := none
    result := none, error := none, revert_reason := none }

/-- Witness fixture for claim C5: a reward-kind trace. -/
def c5reward : Trace :=
  { transaction_index := 0, type := TraceType.reward, action := none
    result := none, error := none, revert_reason := none }

/-- Witness fixture for claim C5: a call-kind trace with complete fields. -/
def c5call : Trace :=
  { transaction_index := 0, type := TraceType.call
    action := some { fromAddr := some "0x0a", toAddr := some "0x0b"
                     value := some "0x1", gas := some "0x5", input := some "0x"
                     type := some CallType.call }
    result := some { address := none, gas_used := some "0x2", output := some "0x" }
    error := none, revert_reason := none }

/-- Witness fixture for claim C6: a call-kind trace carrying an error
message and no result. -/
def c6trace : Trace :=
  { transaction_index := 0, type := TraceType.call
    action := some { fromAddr := some "0x0a", toAddr := some "0x0b"
                     value := some "0x1", gas := some "0x5", input := some "0x"
                     type := some CallType.call }
    result := none, error := some "out of gas", revert_reason := none }

/-- The call entry produced for `c6trace`. -/
def c6call : PbCall := ((traceToCall c6trace).toOption.getD none).getD default

/-- Failing input for claim C7: a call-kind trace whose mandatory `action`
is absent, attached to an otherwise fully valid block. -/
def c7trace : Trace :=
  { transaction_index := 0, type := TraceType.call, action := none
    result := none, error := none, revert_reason := none }

/-- The block holding `c7trace`. -/
def c7block : Block :=
  { header := sampleHeader, transactions := [sampleTx], logs := []
    traces := [c7trace] }


/-- Witness fixture for claim C8: a block with one transaction owning one
log. -/
def c8block : Block :=
  { header := sampleHeader, transactions := [sampleTx], logs := [sampleLog]
    traces := [] }

/-- The canonical block produced for `c8block`. -/
def c8pb : PbBlock := (blockTryFrom c8block).toOption.getD default


/-- Fork step of a streamed response. -/
inductive ForkStep where
  | stepNew
  | stepUndo
  deriving DecidableEq, Repr, Inhabited

/-- One streamed response: the canonical block payload (the source wraps
its protobuf encoding in an `Any`; the embedding carries the block
itself), the fork step, and the decimal-string cursor. -/
structure Response where
  block : PbBlock
  step : ForkStep
  cursor : String
  deriving DecidableEq, Repr, Inhabited

/-- One update of the hot subscription: the tip it is anchored on and the
new blocks above it. -/
structure HotUpdate where
  base_head : HashAndHeight
  blocks : List Block
  deriving DecidableEq, Repr, Inhabited

/-- A `New` response for one converted block; the cursor is the decimal
string of `graph_block.number`. -/
def newResponse (g : PbBlock) : Response :=
  { block := g, step := ForkStep.stepNew, cursor := toString g.number }

/-- The `for block in blocks { convert; yield New }` loop shared by the
live-finalized phase and the hot phase. -/
def convertNew : List Block → Except Err (List Response)
  | [] => Except.ok []
  | b :: rest => do
    let g ← blockTryFrom b
    let rs ← convertNew rest
    Except.ok (newResponse g :: rs)

/-- The synthetic `Undo` response: a default block whose header carries
only the undone height and the decoded hash of the update's base head;
the cursor is the decimal string of the undone height. -/
def undoResponse (lastHead : HashAndHeight) (ph : List Nat) : Response :=
  { block := { pbBlockDefault with
      header := some { pbHeaderDefault with
        number := lastHead.height, parent_hash := ph } }
    step := ForkStep.stepUndo, cursor := toString lastHead.height }

/-- One iteration of the hot-phase loop (src/firehose.rs lines 185-230):
when the update's `base_head` differs from the tracked head, first emit
one `Undo` for the tracked head; then emit every new block as `New`.  The
pair's second component is the new tracked head: the last new block's
hash and height, or `base_head` when the update carried no blocks (the
source computes it before the fork check; it is pure, so the order is
immaterial).  A conversion error aborts the whole stream in the source;
the embedding returns it for the update. -/
def processUpdate (last_head : HashAndHeight) (upd : HotUpdate) :
    Except Err (List Response × HashAndHeight) := do
  let undo ←
    if upd.base_head ≠ last_head then do
      let ph ← decode0xE upd.base_head.hash
      Except.ok [undoResponse last_head ph]
    else Except.ok ([] : List Response)
  let news ← convertNew upd.blocks
  Except.ok (undo ++ news,
    match upd.blocks.getLast? with
    | none => upd.base_head
    | some b => { hash := b.header.hash, height := b.header.number })

/-- The hot-phase loop over the whole update sequence. -/
def processUpdates : HashAndHeight → List HotUpdate → Except Err (List Response)
  | _, [] => Except.ok []
  | last_head, upd :: rest => do
    let r ← processUpdate last_head upd
    let more ← processUpdates r.2 rest
    Except.ok (r.1 ++ more)

/-- The upstream environment one range request observes: the two sources'
finalized heights, the raw blocks each finalized fetch returns (batches
flattened; the claims checked here do not involve transport errors), the
live source's hash lookup, and the hot update sequence. -/
structure Env where
  archiveHeight : Nat
  archiveBlocks : List Block
  rpcHeight : Nat
  rpcBlocks : List Block
  rpcHash : Nat → String
  hotUpdates : List HotUpdate

/-- The Phase A loop body: for each archive block, set the head marker to
its identity and the cursor past it (the source does this before the
conversion; an error aborts either way), then convert and emit it. -/
def phaseALoop : List Block → Option HashAndHeight → Nat →
    Except Err (List Response × Option HashAndHeight × Nat)
  | [], state, fromB => Except.ok ([], state, fromB)
  | b :: rest, _, _ => do
    let g ← blockTryFrom b
    let r ← phaseALoop rest
      (some { hash := b.header.hash, height := b.header.number })
      (b.header.number + 1)
    Except.ok (newResponse g :: r.1, r.2)

/-- Phase A (archive): runs only when the cursor is below the archive's
finalized height.  Afterwards, when a stop height is set, the source
`unwrap`s the head marker (a panic when the archive returned no block)
and ends the stream when the marker's height equals the stop height.
The result is (responses, head marker, cursor, stream-ended flag). -/
def phaseAFinish (toBlock : Option Nat)
    (r : List Response × Option HashAndHeight × Nat) :
    Except Err (List Response × Option HashAndHeight × Nat × Bool) :=
  match toBlock, r.2.1 with
  | some _, none => Except.error Err.panic
  | some t, some st =>
    if st.height = t then Except.ok (r.1, r.2.1, r.2.2, true)
    else Except.ok (r.1, r.2.1, r.2.2, false)
  | none, _ => Except.ok (r.1, r.2.1, r.2.2, false)

def phaseA (env : Env) (from0 : Nat) (toBlock : Option Nat) :
    Except Err (List Response × Option HashAndHeight × Nat × Bool) :=
  if from0 < env.archiveHeight then do
    let r ← phaseALoop env.archiveBlocks none from0
    phaseAFinish toBlock r
  else Except.ok ([], none, from0, false)

/-- The range ceiling of Phase B: the stop height clamped to the live
source's finalized height, or that height when no stop is set. -/
def phaseBTo (env : Env) (toBlock : Option Nat) : Nat :=
  match toBlock with
  | some t => min t env.rpcHeight
  | none => env.rpcHeight

/-- Phase B (live finalized): runs only when the cursor is below the live
source's finalized height; emits the fetched blocks, then sets the head
marker from `get_block_hash` at the phase ceiling (even when no blocks
were returned) and advances the cursor past it; the stream ends when the
ceiling equals the stop height. -/
def phaseB (env : Env) (fromB : Nat) (toBlock : Option Nat)
    (state0 : Option HashAndHeight) :
    Except Err (List Response × Option HashAndHeight × Nat × Bool) :=
  if fromB < env.rpcHeight then do
    let rs ← convertNew env.rpcBlocks
    Except.ok (rs,
      some { hash := env.rpcHash (phaseBTo env toBlock), height := phaseBTo env toBlock },
      phaseBTo env toBlock + 1,
      decide (toBlock = some (phaseBTo env toBlock)))
  else Except.ok ([], state0, fromB, false)

/-- The full response stream of `Firehose::blocks` for one request with
resolved start `from0` against environment `env`: Phase A, Phase B, then
the hot phase, which demands a head marker
(`state.context("state isn't expected to be None")?`). -/
def runBlocks (env : Env) (from0 : Nat) (toBlock : Option Nat) :
    Except Err (List Response) := do
  let ra ← phaseA env from0 toBlock
  if ra.2.2.2 then Except.ok ra.1
  else do
    let rb ← phaseB env ra.2.2.1 toBlock ra.2.1
    if rb.2.2.2 then Except.ok (ra.1 ++ rb.1)
    else
      match rb.2.1 with
      | none => Except.error Err.invariantViolation
      | some st => do
        let rc ← processUpdates st env.hotUpdates
        Except.ok (ra.1 ++ rb.1 ++ rc)

/-- A single-block request's reference. -/
inductive Reference where
  | blockNumber (num : Nat)
  | blockHashAndNumber (num : Nat) (hash : String)
  | cursor (cursor : String)
  deriving DecidableEq, Repr, Inhabited

/-- A single-block request (the source `unwrap`s the optional field). -/
structure SingleBlockRequest where
  reference : Option Reference
  deriving DecidableEq, Repr, Inhabited

/-- One decimal digit's value. -/
def decVal (c : Char) : Option Nat :=
  if '0' ≤ c ∧ c ≤ '9' then some (c.toNat - 48) else none

/-- Accumulating decimal parse of a digit run. -/
def decCharsToNat : List Char → Nat → Option Nat
  | [], acc => some acc
  | c :: rest, acc =>
    match decVal c with
    | some d => decCharsToNat rest (10 * acc + d)
    | none => none

/-- `str::parse::<u64>()`: a non-empty all-digit string whose value fits
in 64 bits. -/
def parseU64Dec (s : String) : Option Nat :=
  match s.toList with
  | [] => none
  | cs =>
    match decCharsToNat cs 0 with
    | some n => if n < 18446744073709551616 then some n else none
    | none => none

/-- Resolve a single-block reference to a height:
`request.reference.as_ref().unwrap()` panics on an absent reference and
`cursor.cursor.parse().unwrap()` panics on an unparsable cursor. -/
def refToNum (r : Option Reference) : Except Err Nat :=
  match r with
  | none => Except.error Err.panic
  | some (Reference.blockNumber n) => Except.ok n
  | some (Reference.blockHashAndNumber n _) => Except.ok n
  | some (Reference.cursor c) =>
    match parseU64Dec c with
    | some n => Except.ok n
    | none => Except.error Err.panic

/-- `stream.next().await.unwrap()?`: a panic when the archive stream
yields nothing, and propagation of a failed first batch. -/
def firstBatch (resp : List (Except Err (List Block))) : Except Err (List Block) :=
  match resp.head? with
  | none => Except.error Err.panic
  | some batch => batch

/-- `blocks.into_iter().nth(0).unwrap()`: a panic on an empty batch. -/
def firstBlock (blocks : List Block) : Except Err Block :=
  match blocks.head? with
  | none => Except.error Err.panic
  | some b => Except.ok b

/-- `Firehose::block` (src/firehose.rs lines 234-260) against the archive
response to its one-block request: resolve the reference, take the first
batch's first block and convert it. -/
def singleBlock (archiveResponse : List (Except Err (List Block)))
    (request : SingleBlockRequest) : Except Err PbBlock := do
  let _block_num ← refToNum request.reference
  let blocks ← firstBatch archiveResponse
  let blk ← firstBlock blocks
  blockTryFrom blk

/-- Witness fixture for claim C1: the previously tracked head. -/
def c1last : HashAndHeight := { hash := "0xaa", height := 5 }

/-- Witness fixture for claim C1: a hot update anchored on a different
head and carrying no blocks. -/
def c1upd : HotUpdate :=
  { base_head := { hash := "0x01", height := 6 }, blocks := [] }

/-- The responses and new tracked head produced for `c1upd`. -/
def c1out : List Response × HashAndHeight :=
  (processUpdate c1last c1upd).toOption.getD ([], c1last)

/-- Environment of claim C2's counterexample: both sources at height 0,
no blocks, no updates. -/
def c2env : Env :=
  { archiveHeight := 0, archiveBlocks := [], rpcHeight := 0, rpcBlocks := []
    rpcHash := fun _ => "0x", hotUpdates := [] }

/-- Environment of claim C2's amended-claim witness: the live source is
ahead of the start, so Phase B runs (with no blocks) and sets a marker. -/
def c2envB : Env :=
  { archiveHeight := 0, archiveBlocks := [], rpcHeight := 1, rpcBlocks := []
    rpcHash := fun _ => "0x0e", hotUpdates := [] }

/-- Phase A output for the amended-claim witness. -/
def c2ra : List Response × Option HashAndHeight × Nat × Bool :=
  (phaseA c2envB 0 none).toOption.getD default

/-- Phase B output for the amended-claim witness. -/
def c2rb : List Response × Option HashAndHeight × Nat × Bool :=
  (phaseB c2envB c2ra.2.2.1 none c2ra.2.1).toOption.getD default

/- Theorems. -/

/-- Inversion for a successful `Except` bind. -/
theorem except_bind_ok {ε α β : Type} {e : Except ε α} {f : α → Except ε β} {b : β}
    (h : e >>= f = Except.ok b) : ∃ a, e = Except.ok a ∧ f a = Except.ok b := by
  cases e with
  | ok a => exact ⟨a, rfl, h⟩
  | error err => simp [Bind.bind, Except.bind] at h

/-- Claim C3 (counterexample): at `start_block_num = i64::MIN` (k = 2^63)
and head 100 the code returns an error, while the claim demands the
effective start `max(0, head - k)` (= 0). -/
theorem resolve_start_min_counterexample :
    resolve_negative_start i64Min 100 ≠
      Except.ok (Int.toNat (max 0 ((100 : Int) - i64Min.natAbs))) := by
  intro h
  simp [resolve_negative_start, i64Min] at h

/-- Claim C3 (amended): for every i64 `start_block_num` other than
`i64::MIN`, a negative start resolves to `max(0, head - k)` and a
non-negative start resolves to itself. -/
theorem resolve_start_amended (start : Int) (head : Nat)
    (hlo : i64Min < start) (hhi : start < 9223372036854775808) :
    resolve_negative_start start head =
      Except.ok (if start < 0 then Int.toNat (max 0 ((head : Int) - start.natAbs))
                 else start.toNat) := by
  unfold resolve_negative_start
  have hne : start ≠ i64Min := by simp only [i64Min] at hlo ⊢; omega
  by_cases hneg : start < 0
  · simp only [if_pos hneg, if_neg hne]
    congr 1
    omega
  · simp only [if_neg hneg]

/-- Witness for the amended claim C3 at the spec's example
(head = 100, start = -10, effective start 90). -/
theorem resolve_start_amended_witness :
    resolve_negative_start (-10) 100 =
      Except.ok (if (-10 : Int) < 0 then Int.toNat (max 0 ((100 : Int) - (-10 : Int).natAbs))
                 else (-10 : Int).toNat) :=
  resolve_start_amended (-10) 100 (by decide) (by decide)

/-- Claim C4: a `0x`-prefixed input with an odd number of hex digits is
decoded after prepending one zero digit; `"0x1"` gives byte 0x01, `"0x123"`
gives bytes 0x01 0x23, and `"0xzz"` fails with the malformed-hex error. -/
theorem vec_from_hex_odd_pad (digits : List Char) (hodd : digits.length % 2 = 1) :
    (vecFromHexChars ('0' :: 'x' :: digits) =
      match decodeHexPairs ('0' :: digits) with
      | some b => Except.ok b
      | none => Except.error Err.malformedHex)
    ∧ vec_from_hex "0x1" = Except.ok [1]
    ∧ vec_from_hex "0x123" = Except.ok [1, 35]
    ∧ vec_from_hex "0xzz" = Except.error Err.malformedHex := by
  refine ⟨?_, rfl, rfl, rfl⟩
  have hlen : ('0' :: 'x' :: digits).length = digits.length + 2 := by
    simp [List.length_cons]
  have hodd2 : ('0' :: 'x' :: digits).length % 2 ≠ 0 := by
    rw [hlen, Nat.add_mod_right, hodd]; decide
  have hge : ¬ ('0' :: 'x' :: digits).length < 2 := by
    rw [hlen]; omega
  rw [vecFromHexChars, if_pos hodd2, if_neg hge]
  rfl

/-- Witness for claim C4's general part at `digits = ['1']`. -/
theorem vec_from_hex_odd_pad_witness :
    (vecFromHexChars ('0' :: 'x' :: ['1']) =
      match decodeHexPairs ('0' :: ['1']) with
      | some b => Except.ok b
      | none => Except.error Err.malformedHex)
    ∧ vec_from_hex "0x1" = Except.ok [1]
    ∧ vec_from_hex "0x123" = Except.ok [1, 35]
    ∧ vec_from_hex "0xzz" = Except.error Err.malformedHex :=
  vec_from_hex_odd_pad ['1'] (by decide)

/-- Reduction of a successful `Except` bind. -/
theorem except_ok_bind {e a b : Type} (x : a) (f : a → Except e b) :
    (Except.ok x : Except e a) >>= f = f x := rfl

/-- Reduction of a failed `Except` bind. -/
theorem except_error_bind {e a b : Type} (err : e) (f : a → Except e b) :
    (Except.error err : Except e a) >>= f = Except.error err := rfl

/-- Unfolding of one `collectCalls` step. -/
theorem collectCalls_cons (t : Trace) (rest : List Trace) :
    collectCalls (t :: rest) =
      traceToCall t >>= fun c =>
        collectCalls rest >>= fun cs =>
          Except.ok
            (match c with
             | some call => call :: cs
             | none => cs) := rfl

/-- Claim C10: a raw transaction whose optional `to` field is absent
converts so that the canonical `to` is the 20-byte all-zero address. -/
theorem absent_to_zero_address (t : Transaction) (pt : PbTransactionTrace)
    (hto : t.toAddr = none)
    (hok : transactionTryFrom t = Except.ok pt) :
    pt.toAddr = List.replicate 20 0 := by
  unfold transactionTryFrom at hok
  rw [hto] at hok
  obtain ⟨a0, ha0, hok⟩ := except_bind_ok hok
  obtain ⟨a1, -, hok⟩ := except_bind_ok hok
  obtain ⟨a2, -, hok⟩ := except_bind_ok hok
  obtain ⟨a3, -, hok⟩ := except_bind_ok hok
  obtain ⟨a4, -, hok⟩ := except_bind_ok hok
  obtain ⟨a5, -, hok⟩ := except_bind_ok hok
  obtain ⟨a6, -, hok⟩ := except_bind_ok hok
  obtain ⟨a7, -, hok⟩ := except_bind_ok hok
  obtain ⟨a8, -, hok⟩ := except_bind_ok hok
  obtain ⟨a9, -, hok⟩ := except_bind_ok hok
  obtain ⟨a10, -, hok⟩ := except_bind_ok hok
  obtain ⟨a11, -, hok⟩ := except_bind_ok hok
  obtain ⟨a12, -, hok⟩ := except_bind_ok hok
  have hz : decode0xE (Option.getD (none : Option String) zeroAddressHex) =
      Except.ok (List.replicate 20 0) := by decide
  rw [hz] at ha0
  injection ha0 with ha0
  injection hok with hok
  rw [← hok, ha0]

/-- Witness for claim C10 at `c10tx`. -/
theorem absent_to_zero_address_witness : c10pt.toAddr = List.replicate 20 0 :=
  absent_to_zero_address c10tx c10pt rfl (by decide)

/-- Claim C5: a suicide- or reward-kind trace converts to no call entry,
and inserting one anywhere in a transaction trace group leaves the
flattened call list unchanged, whatever other traces the group holds. -/
theorem suicide_reward_no_calls (pre post : List Trace) (t : Trace)
    (hk : t.type = TraceType.suicide ∨ t.type = TraceType.reward) :
    traceToCall t = Except.ok none ∧
    collectCalls (pre ++ t :: post) = collectCalls (pre ++ post) := by
  have hnone : traceToCall t = Except.ok none := by
    unfold traceToCall
    rcases hk with h | h <;> rw [h]
  refine ⟨hnone, ?_⟩
  induction pre with
  | nil =>
    simp only [List.nil_append]
    rw [collectCalls_cons, hnone, except_ok_bind]
    exact bind_pure (collectCalls post)
  | cons p rest ih =>
    simp only [List.cons_append] at ih ⊢
    rw [collectCalls_cons, collectCalls_cons]
    cases hp : traceToCall p with
    | error e => rw [except_error_bind, except_error_bind]
    | ok c => rw [except_ok_bind, except_ok_bind, ih]

/-- Witness for claim C5: a suicide trace between a call trace and a
reward trace. -/
theorem suicide_reward_no_calls_witness :
    traceToCall c5suicide = Except.ok none ∧
    collectCalls ([c5call] ++ c5suicide :: [c5reward]) =
      collectCalls ([c5call] ++ [c5reward]) :=
  suicide_reward_no_calls [c5call] [c5reward] c5suicide (Or.inl rfl)

/-- Claim C7 (code evaluated at the failing input): converting a block
holding a call-kind trace with an absent mandatory `action` aborts through
the modelled panic (`Option::unwrap` on `None`) for the whole block — not
through the typed `MissingRequiredField` failure the claim demands, and
not by skipping the trace. -/
theorem missing_action_panics :
    blockTryFrom c7block = Except.error Err.panic ∧
    blockTryFrom c7block ≠ Except.error Err.missingRequiredField := by
  exact ⟨by decide, by decide⟩

/-- Claim C6: for every emitted call entry, a call-kind trace without a
result yields `gas_consumed = 0` and empty `return_data`; `status_failed`
holds exactly when an error message or a revert reason is present;
`status_reverted` holds exactly when a revert reason is present; and
`failure_reason` is the error message, else the revert reason, else
empty. -/
theorem call_no_result_defaults_and_status (t : Trace) (c : PbCall)
    (hok : traceToCall t = Except.ok (some c)) :
    (t.type = TraceType.call → t.result = none →
      c.gas_consumed = 0 ∧ c.return_data = []) ∧
    c.status_failed = (t.error.isSome || t.revert_reason.isSome) ∧
    c.status_reverted = t.revert_reason.isSome ∧
    c.failure_reason = t.error.getD (t.revert_reason.getD "") := by
  obtain ⟨ti, ty, act, res, err, rr⟩ := t
  cases ty with
  | suicide => simp [traceToCall] at hok
  | reward => simp [traceToCall] at hok
  | create =>
    simp only [traceToCall] at hok
    obtain ⟨action, -, hok⟩ := except_bind_ok hok
    obtain ⟨caller, -, hok⟩ := except_bind_ok hok
    obtain ⟨res1, -, hok⟩ := except_bind_ok hok
    obtain ⟨address, -, hok⟩ := except_bind_ok hok
    obtain ⟨value, -, hok⟩ := except_bind_ok hok
    obtain ⟨gas, -, hok⟩ := except_bind_ok hok
    obtain ⟨res2, -, hok⟩ := except_bind_ok hok
    obtain ⟨gasUsed, -, hok⟩ := except_bind_ok hok
    obtain ⟨c0, hmk, hok⟩ := except_bind_ok hok
    injection hok with hok
    injection hok with hok
    unfold mkCall at hmk
    obtain ⟨b1, -, hmk⟩ := except_bind_ok hmk
    obtain ⟨b2, -, hmk⟩ := except_bind_ok hmk
    obtain ⟨b3, -, hmk⟩ := except_bind_ok hmk
    obtain ⟨b4, -, hmk⟩ := except_bind_ok hmk
    obtain ⟨b5, -, hmk⟩ := except_bind_ok hmk
    obtain ⟨b6, -, hmk⟩ := except_bind_ok hmk
    obtain ⟨b7, -, hmk⟩ := except_bind_ok hmk
    injection hmk with hmk
    subst hok
    subst hmk
    exact ⟨fun hc => (nomatch hc), rfl, rfl, rfl⟩
  | call =>
    simp only [traceToCall] at hok
    obtain ⟨action, -, hok⟩ := except_bind_ok hok
    obtain ⟨ct, -, hok⟩ := except_bind_ok hok
    obtain ⟨caller, -, hok⟩ := except_bind_ok hok
    obtain ⟨address, -, hok⟩ := except_bind_ok hok
    obtain ⟨value, -, hok⟩ := except_bind_ok hok
    obtain ⟨gas, -, hok⟩ := except_bind_ok hok
    obtain ⟨gasUsed, hgu, hok⟩ := except_bind_ok hok
    obtain ⟨output, hout, hok⟩ := except_bind_ok hok
    obtain ⟨input, -, hok⟩ := except_bind_ok hok
    obtain ⟨c0, hmk, hok⟩ := except_bind_ok hok
    injection hok with hok
    injection hok with hok
    unfold mkCall at hmk
    obtain ⟨b1, -, hmk⟩ := except_bind_ok hmk
    obtain ⟨b2, -, hmk⟩ := except_bind_ok hmk
    obtain ⟨b3, -, hmk⟩ := except_bind_ok hmk
    obtain ⟨b4, -, hmk⟩ := except_bind_ok hmk
    obtain ⟨b5, hb5, hmk⟩ := except_bind_ok hmk
    obtain ⟨b6, hb6, hmk⟩ := except_bind_ok hmk
    obtain ⟨b7, -, hmk⟩ := except_bind_ok hmk
    injection hmk with hmk
    subst hok
    subst hmk
    refine ⟨?_, rfl, rfl, rfl⟩
    intro hcall hres
    subst hres
    have hgu0 : callGasUsed none = Except.ok "0x0" := rfl
    rw [hgu0] at hgu
    injection hgu with hgu
    subst hgu
    have hout0 : callOutput none = Except.ok "0x" := rfl
    rw [hout0] at hout
    injection hout with hout
    subst hout
    have hp0 : parseU64Panic "0x0" = Except.ok 0 := rfl
    rw [hp0] at hb5
    injection hb5 with hb5
    subst hb5
    have hv0 : vecFromHexPanic "0x" = Except.ok [] := rfl
    rw [hv0] at hb6
    injection hb6 with hb6
    subst hb6
    exact ⟨rfl, rfl⟩

/-- Witness for claim C6 at `c6trace` (a call trace with no result and
an error message). -/
theorem call_no_result_defaults_and_status_witness :
    (c6trace.type = TraceType.call → c6trace.result = none →
      c6call.gas_consumed = 0 ∧ c6call.return_data = []) ∧
    c6call.status_failed = (c6trace.error.isSome || c6trace.revert_reason.isSome) ∧
    c6call.status_reverted = c6trace.revert_reason.isSome ∧
    c6call.failure_reason = c6trace.error.getD (c6trace.revert_reason.getD "") :=
  call_no_result_defaults_and_status c6trace c6call (by decide)

/-- Unfolding of one `convertTxs` step. -/
theorem convertTxs_cons (tx : Transaction) (rest : List Transaction)
    (logsM : List (Nat × List Log)) (tracesM : List (Nat × List Trace)) :
    convertTxs (tx :: rest) logsM tracesM =
      processTx logsM tracesM tx >>= fun rr =>
        convertTxs rest rr.2.1 rr.2.2 >>= fun ts =>
          Except.ok (rr.1 :: ts) := rfl

/-- Looking a key up after one grouping push. -/
theorem alistGet_push {a : Type} (m : List (Nat × List a)) (k2 : Nat) (x : a) (k : Nat) :
    alistGet (alistPush m k2 x) k =
      if k2 = k then some ((alistGet m k).getD [] ++ [x]) else alistGet m k := by
  induction m with
  | nil => by_cases h : k2 = k <;> simp [alistPush, alistGet, h]
  | cons hd rest ih =>
    obtain ⟨k3, v⟩ := hd
    by_cases h32 : k3 = k2
    · subst h32
      by_cases h3k : k3 = k
      · subst h3k
        simp [alistPush, alistGet]
      · simp [alistPush, alistGet, h3k]
    · by_cases h3k : k3 = k
      · subst h3k
        have hk2 : ¬ (k2 = k3) := fun hh => h32 hh.symm
        simp [alistPush, alistGet, h32, hk2]
      · simp [alistPush, alistGet, h32, h3k, ih]

/-- The group a key holds after the whole grouping fold: whatever the
accumulator already held, followed by the records with that key, in input
order. -/
theorem alistGet_group {a : Type} (key : a → Nat) (xs : List a)
    (m : List (Nat × List a)) (k : Nat) :
    (alistGet (groupByKey key m xs) k).getD [] =
      (alistGet m k).getD [] ++ xs.filter (fun x => key x == k) := by
  induction xs generalizing m with
  | nil => simp [groupByKey]
  | cons x rest ih =>
    show (alistGet (groupByKey key (alistPush m (key x) x) rest) k).getD [] = _
    rw [ih, alistGet_push]
    by_cases h : key x = k
    · simp [List.filter_cons, h]
    · simp [List.filter_cons, h]

/-- `alistRemove` returns exactly the looked-up group. -/
theorem alistRemove_fst {a : Type} (m : List (Nat × a)) (k : Nat) :
    (alistRemove m k).1 = alistGet m k := by
  induction m with
  | nil => rfl
  | cons hd rest ih =>
    obtain ⟨k2, v⟩ := hd
    by_cases h : k2 = k <;> simp [alistRemove, alistGet, h, ih]

/-- Removing one key leaves every other key's group unchanged. -/
theorem alistGet_remove_ne {a : Type} (m : List (Nat × a)) (k k2 : Nat)
    (hne : k2 ≠ k) : alistGet (alistRemove m k).2 k2 = alistGet m k2 := by
  induction m with
  | nil => rfl
  | cons hd rest ih =>
    obtain ⟨k3, v⟩ := hd
    by_cases h3 : k3 = k
    · subst h3
      have : ¬ (k3 = k2) := fun hh => hne (hh.symm)
      simp [alistRemove, alistGet, this]
    · by_cases h32 : k3 = k2 <;> simp [alistRemove, alistGet, h3, h32, hne, ih]

/-- Through `convertTxs`, the `j`-th canonical transaction's receipt logs
are the conversion of the group its index selects in the grouping map
(provided the transaction indices are pairwise distinct). -/
theorem convertTxs_receipt_logs (txs : List Transaction)
    (logsM : List (Nat × List Log)) (tracesM : List (Nat × List Trace))
    (out : List PbTransactionTrace)
    (hok : convertTxs txs logsM tracesM = Except.ok out)
    (hnodup : (txs.map (fun tx => tx.transaction_index)).Nodup) :
    ∀ j, (hj : j < txs.length) → ∃ tt r,
      out.get? j = some tt ∧ tt.receipt = some r ∧
      convertGroupLogs
          ((alistGet logsM (txs.get ⟨j, hj⟩).transaction_index).getD []) =
        Except.ok r.logs := by
  induction txs generalizing logsM tracesM out with
  | nil =>
    intro j hj
    exact absurd hj (by simp)
  | cons tx rest ih =>
    rw [convertTxs_cons] at hok
    obtain ⟨rr, hr, hok⟩ := except_bind_ok hok
    obtain ⟨ts, hts, hok⟩ := except_bind_ok hok
    injection hok with hok
    subst hok
    unfold processTx at hr
    obtain ⟨logs, hlogs, hr⟩ := except_bind_ok hr
    obtain ⟨calls, -, hr⟩ := except_bind_ok hr
    obtain ⟨cumulative, -, hr⟩ := except_bind_ok hr
    obtain ⟨bloom, -, hr⟩ := except_bind_ok hr
    obtain ⟨tx_trace, -, hr⟩ := except_bind_ok hr
    injection hr with hr
    subst hr
    intro j hj
    cases j with
    | zero =>
      refine ⟨_, _, rfl, rfl, ?_⟩
      rw [alistRemove_fst] at hlogs
      exact hlogs
    | succ j2 =>
      have hj2 : j2 < rest.length := by
        simpa [Nat.succ_lt_succ_iff] using hj
      have hnd : (rest.map (fun tx => tx.transaction_index)).Nodup :=
        (List.nodup_cons.mp hnodup).2
      obtain ⟨tt, r, hget, hrec, hl⟩ := ih _ _ ts hts hnd j2 hj2
      refine ⟨tt, r, by simpa using hget, hrec, ?_⟩
      have hmem : (rest.get ⟨j2, hj2⟩).transaction_index ∈
          rest.map (fun tx => tx.transaction_index) := by
        exact List.mem_map_of_mem _ (rest.get_mem j2 hj2)
      have hne : (rest.get ⟨j2, hj2⟩).transaction_index ≠ tx.transaction_index := by
        intro heq
        rw [heq] at hmem
        exact (List.nodup_cons.mp hnodup).1 hmem
      have hmap : alistGet (alistRemove logsM tx.transaction_index).2
            (rest.get ⟨j2, hj2⟩).transaction_index =
          alistGet logsM (rest.get ⟨j2, hj2⟩).transaction_index :=
        alistGet_remove_ne logsM tx.transaction_index _ hne
      rw [hmap] at hl
      simpa using hl

/-- Claim C8: in a successfully converted block with pairwise-distinct
transaction indices, the transaction at position `j` with index `i`
carries a receipt whose log list is exactly the conversion of the raw
logs bearing index `i`, in input order — no drops, no duplicates, and an
empty list (never an error) when no raw log bears that index. -/
theorem log_grouping_roundtrip (blk : Block) (pb : PbBlock) (i j : Nat)
    (hok : blockTryFrom blk = Except.ok pb)
    (hnodup : (blk.transactions.map (fun tx => tx.transaction_index)).Nodup)
    (hj : j < blk.transactions.length)
    (hidx : (blk.transactions.get ⟨j, hj⟩).transaction_index = i) :
    ∃ tt r, pb.transaction_traces.get? j = some tt ∧ tt.receipt = some r ∧
      convertGroupLogs (blk.logs.filter (fun l => l.transaction_index == i)) =
        Except.ok r.logs := by
  unfold blockTryFrom at hok
  obtain ⟨txsOut, htxs, hok⟩ := except_bind_ok hok
  obtain ⟨hash, -, hok⟩ := except_bind_ok hok
  obtain ⟨header, -, hok⟩ := except_bind_ok hok
  injection hok with hok
  obtain ⟨tt, r, hget, hrec, hl⟩ :=
    convertTxs_receipt_logs blk.transactions _ _ txsOut htxs hnodup j hj
  refine ⟨tt, r, ?_, hrec, ?_⟩
  · rw [← hok]
    simpa using hget
  · rw [hidx, alistGet_group] at hl
    simpa using hl

/-- Witness for claim C8 at `c8block` (one transaction, one log). -/
theorem log_grouping_roundtrip_witness :
    ∃ tt r, c8pb.transaction_traces.get? 0 = some tt ∧ tt.receipt = some r ∧
      convertGroupLogs (c8block.logs.filter (fun l => l.transaction_index == 0)) =
        Except.ok r.logs :=
  log_grouping_roundtrip c8block c8pb 0 0 (by decide) (by decide) (by decide) rfl

/-- Unfolding of one `convertNew` step. -/
theorem convertNew_cons (b : Block) (rest : List Block) :
    convertNew (b :: rest) =
      blockTryFrom b >>= fun g =>
        convertNew rest >>= fun rs => Except.ok (newResponse g :: rs) := rfl

/-- Every response `convertNew` produces carries the `New` step. -/
theorem convertNew_steps (bs : List Block) (news : List Response)
    (h : convertNew bs = Except.ok news) :
    ∀ rsp ∈ news, rsp.step = ForkStep.stepNew := by
  induction bs generalizing news with
  | nil =>
    have h2 : (Except.ok ([] : List Response) : Except Err (List Response)) =
        Except.ok news := h
    injection h2 with h2
    subst h2
    intro rsp hr
    simp at hr
  | cons b rest ih =>
    rw [convertNew_cons] at h
    obtain ⟨g, -, h⟩ := except_bind_ok h
    obtain ⟨rs, hrs, h⟩ := except_bind_ok h
    injection h with h
    subst h
    intro rsp hr
    rcases List.mem_cons.mp hr with h1 | h2
    · rw [h1]; rfl
    · exact ih rs hrs rsp h2

/-- Claim C1: when a hot update's `base_head` differs from the tracked
head, the update's responses are exactly one `Undo` — carrying the
previously tracked height, the decoded `base_head` hash as parent hash
and the previous height's decimal string as cursor (see `undoResponse`) —
followed only by `New` responses; the tracked head then becomes the last
new block's identity, or `base_head` when the update carried no blocks. -/
theorem hot_reorg_emits_undo (last_head : HashAndHeight) (upd : HotUpdate)
    (resps : List Response) (head2 : HashAndHeight)
    (hne : upd.base_head ≠ last_head)
    (hok : processUpdate last_head upd = Except.ok (resps, head2)) :
    ∃ ph news,
      decode0xE upd.base_head.hash = Except.ok ph ∧
      resps = undoResponse last_head ph :: news ∧
      (∀ rsp ∈ news, rsp.step = ForkStep.stepNew) ∧
      head2 = (match upd.blocks.getLast? with
               | none => upd.base_head
               | some b => { hash := b.header.hash, height := b.header.number }) := by
  unfold processUpdate at hok
  rw [if_pos hne] at hok
  obtain ⟨ph, hph, hok⟩ := except_bind_ok hok
  obtain ⟨undo, hu, hok⟩ := except_bind_ok hok
  injection hu with hu
  obtain ⟨news, hn, hok⟩ := except_bind_ok hok
  injection hok with hok
  injection hok with h1 h2
  subst hu
  refine ⟨ph, news, hph, ?_, convertNew_steps upd.blocks news hn, h2.symm⟩
  rw [← h1]
  rfl

/-- Witness for claim C1 at `c1upd` against tracked head `c1last`. -/
theorem hot_reorg_emits_undo_witness :
    ∃ ph news,
      decode0xE c1upd.base_head.hash = Except.ok ph ∧
      c1out.1 = undoResponse c1last ph :: news ∧
      (∀ rsp ∈ news, rsp.step = ForkStep.stepNew) ∧
      c1out.2 = (match c1upd.blocks.getLast? with
                 | none => c1upd.base_head
                 | some b => { hash := b.header.hash, height := b.header.number }) :=
  hot_reorg_emits_undo c1last c1upd c1out.1 c1out.2 (by decide) (by decide)

/-- Unfolding of one Phase A loop step. -/
theorem phaseALoop_cons (b : Block) (rest : List Block)
    (st : Option HashAndHeight) (fromB : Nat) :
    phaseALoop (b :: rest) st fromB =
      blockTryFrom b >>= fun g =>
        phaseALoop rest (some { hash := b.header.hash, height := b.header.number })
            (b.header.number + 1) >>= fun r =>
          Except.ok (newResponse g :: r.1, r.2) := rfl

/-- A successful Phase A loop either consumed no block (leaving state and
cursor untouched) or left a head marker. -/
theorem phaseALoop_state (bs : List Block) (st0 : Option HashAndHeight) (f0 : Nat)
    (r : List Response × Option HashAndHeight × Nat)
    (h : phaseALoop bs st0 f0 = Except.ok r) :
    (bs = [] ∧ r = ([], st0, f0)) ∨ r.2.1.isSome = true := by
  induction bs generalizing st0 f0 r with
  | nil =>
    have h2 : (Except.ok (([], st0, f0) :
        List Response × Option HashAndHeight × Nat) : Except Err _) = Except.ok r := h
    injection h2 with h2
    exact Or.inl ⟨rfl, h2.symm⟩
  | cons b rest ih =>
    rw [phaseALoop_cons] at h
    obtain ⟨g, -, h⟩ := except_bind_ok h
    obtain ⟨r2, hr2, h⟩ := except_bind_ok h
    injection h with h
    subst h
    rcases ih _ _ _ hr2 with ⟨-, hr⟩ | hsome
    · right
      rw [hr]
      rfl
    · right
      simpa using hsome

/-- The end-of-Phase-A check keeps whatever head marker the loop left. -/
theorem phaseAFinish_state (toBlock : Option Nat)
    (r : List Response × Option HashAndHeight × Nat)
    (ra : List Response × Option HashAndHeight × Nat × Bool)
    (h : phaseAFinish toBlock r = Except.ok ra) : ra.2.1 = r.2.1 := by
  unfold phaseAFinish at h
  cases toBlock with
  | none =>
    injection h with h
    rw [← h]
  | some t =>
    cases hst : r.2.1 with
    | none =>
      rw [hst] at h
      injection h
    | some st =>
      rw [hst] at h
      have h2 : (if st.height = t then Except.ok (r.1, some st, r.2.2, true)
                 else Except.ok (r.1, some st, r.2.2, false)) = Except.ok ra := h
      by_cases hh : st.height = t
      · rw [if_pos hh] at h2
        injection h2 with h2
        rw [← h2]
      · rw [if_neg hh] at h2
        injection h2 with h2
        rw [← h2]

/-- A successful Phase A either contributes nothing (no block emitted, no
marker, cursor unmoved) or leaves a head marker. -/
theorem phaseA_inv (env : Env) (from0 : Nat) (toBlock : Option Nat)
    (ra : List Response × Option HashAndHeight × Nat × Bool)
    (hA : phaseA env from0 toBlock = Except.ok ra) :
    ra = ([], none, from0, false) ∨ ra.2.1.isSome = true := by
  unfold phaseA at hA
  by_cases hrun : from0 < env.archiveHeight
  · rw [if_pos hrun] at hA
    obtain ⟨r, hr, hA⟩ := except_bind_ok hA
    have hst := phaseAFinish_state toBlock r ra hA
    rcases phaseALoop_state _ _ _ _ hr with ⟨hbs, hre⟩ | hsome
    · left
      rw [hre] at hA
      cases toBlock with
      | none =>
        unfold phaseAFinish at hA
        injection hA with hA
        exact hA.symm
      | some t =>
        unfold phaseAFinish at hA
        injection hA
    · right
      rw [hst]
      exact hsome
  · rw [if_neg hrun] at hA
    injection hA with hA
    exact Or.inl hA.symm

/-- When Phase A runs over a non-empty archive response, it leaves a head
marker. -/
theorem phaseA_nonempty_some (env : Env) (from0 : Nat) (toBlock : Option Nat)
    (ra : List Response × Option HashAndHeight × Nat × Bool)
    (hrun : from0 < env.archiveHeight) (hbs : env.archiveBlocks ≠ [])
    (hA : phaseA env from0 toBlock = Except.ok ra) : ra.2.1.isSome = true := by
  unfold phaseA at hA
  rw [if_pos hrun] at hA
  obtain ⟨r, hr, hA⟩ := except_bind_ok hA
  have hst := phaseAFinish_state toBlock r ra hA
  rcases phaseALoop_state _ _ _ _ hr with ⟨hbs2, -⟩ | hsome
  · exact absurd hbs2 hbs
  · rw [hst]
    exact hsome

/-- Claim C2 (counterexample): the request resolving to start height 0
(which is ≥ 0) against `c2env` — both finalized heights 0 — reaches the
hot phase with no head marker, and the stream fails through the
InvariantViolation branch the claim says is never taken. -/
theorem head_marker_counterexample :
    runBlocks c2env 0 none = Except.error Err.invariantViolation := rfl

/-- Claim C2 (amended): a head marker is established before the hot phase
whenever the resolved start is below the live source's finalized height,
or Phase A runs (start below the archive height) over a non-empty archive
response; when the start is at or above both finalized heights, neither
phase sets one and the InvariantViolation branch is taken (Phase B does
not always set a marker — it is skipped when the cursor is not below the
live finalized height). -/
theorem head_marker_established (env : Env) (from0 : Nat) (toBlock : Option Nat)
    (ra rb : List Response × Option HashAndHeight × Nat × Bool)
    (hcond : from0 < env.rpcHeight ∨
      (from0 < env.archiveHeight ∧ env.archiveBlocks ≠ []))
    (hA : phaseA env from0 toBlock = Except.ok ra)
    (hB : phaseB env ra.2.2.1 toBlock ra.2.1 = Except.ok rb) :
    rb.2.1.isSome = true := by
  unfold phaseB at hB
  by_cases hBrun : ra.2.2.1 < env.rpcHeight
  · rw [if_pos hBrun] at hB
    obtain ⟨rs, -, hB⟩ := except_bind_ok hB
    injection hB with hB
    rw [← hB]
    rfl
  · rw [if_neg hBrun] at hB
    injection hB with hB
    rcases phaseA_inv env from0 toBlock ra hA with htriv | hsome
    · rcases hcond with h1 | ⟨h2, h3⟩
      · exfalso
        apply hBrun
        rw [htriv]
        exact h1
      · have hs := phaseA_nonempty_some env from0 toBlock ra h2 h3 hA
        rw [htriv] at hs
        simp at hs
    · rw [← hB]
      exact hsome

/-- Witness for the amended claim C2 against `c2envB` (start 0 below the
live finalized height 1). -/
theorem head_marker_established_witness : c2rb.2.1.isSome = true :=
  head_marker_established c2envB 0 none c2ra c2rb (Or.inl (by decide))
    (by decide) (by decide)

/-- Claim C9 (code evaluated at the failing inputs): an unparsable cursor
makes `Firehose::block` abort through the modelled panic
(`parse().unwrap()`) rather than return the typed `InvalidCursor` error
the claim demands, and an archive response with no block panics
(`next().unwrap()` on an empty stream, `nth(0).unwrap()` on an empty
batch) rather than return `NotFound`. -/
theorem single_block_untyped_aborts :
    singleBlock [] { reference := some (Reference.cursor "abc") } =
        Except.error Err.panic ∧
    singleBlock [] { reference := some (Reference.blockNumber 5) } =
        Except.error Err.panic ∧
    singleBlock [Except.ok []] { reference := some (Reference.blockNumber 5) } =
        Except.error Err.panic ∧
    singleBlock [] { reference := some (Reference.cursor "abc") } ≠
        Except.error Err.invalidCursor ∧
    singleBlock [] { reference := some (Reference.blockNumber 5) } ≠
        Except.error Err.notFound := by
  refine ⟨rfl, rfl, rfl, ?_, ?_⟩ <;> decide
